import Mathlib

/-!
Verification of the release-monitor core of `main.py` (a release-tracking
chat bot).  The development shallowly embeds the parsing phase of
`fetch_releases_from_page`, its cache-fallback orchestration, and the
detection/batching loop of `monitor_new_releases`, and proves the spec's
testable properties about them.
-/

/-- One matched column `div` inside a release row: `text` is the result of
`get_text(strip=True)` on the column, and `span` is the stripped text of a
nested `span` element when one exists (`find("span")` in the source). -/
structure ColData where
  text : String
  span : Option String
deriving DecidableEq

/-- One release row container (a `div` whose class contains
"new-release-item"); `columns` is the list of sub-`div`s matched by the
col-6 / col-2 / col-4 class test, in document order. -/
structure ReleaseDiv where
  columns : List ColData
deriving DecidableEq

/-- A parsed release record, mirroring the dict built at main.py:143-148. -/
structure ReleaseRecord where
  title : String
  chapter : String
  group : String
  key : String
deriving DecidableEq

/-- The title extracted from the first column: the nested span's text when a
span exists, otherwise the column's own text (main.py:133-134). -/
def colTitle (c : ColData) : String :=
  match c.span with
  | some s => s
  | none => c.text

/-- Parsing of a single release row (main.py:125-153): requires at least 3
matched columns, non-empty title and release text; the `group` field falls
back to "Unknown" when empty, while the `key` concatenates the raw column
texts with "|". A row failing the checks yields no record. -/
def parseRow (d : ReleaseDiv) : Option ReleaseRecord :=
  match d.columns with
  | c0 :: c1 :: c2 :: _ =>
    let title := colTitle c0
    let release := c1.text
    let group := c2.text
    if (title != "") && (release != "") then
      some ⟨title, release, if group != "" then group else ("Unknown"),
        title ++ "|" ++ release ++ "|" ++ group⟩
    else none
  | _ => none

/-- The parsing phase of `fetch_releases_from_page`: each row is parsed
independently and failing rows are dropped (the per-row try/except plus the
column/emptiness checks). -/
def parseReleases (divs : List ReleaseDiv) : List ReleaseRecord :=
  divs.filterMap parseRow

/-- A row is well-formed when it has at least 3 matched columns and both the
extracted title and the release text are non-empty, i.e. exactly when the
source code accepts it. -/
def rowWellFormed (d : ReleaseDiv) : Bool :=
  match d.columns with
  | c0 :: c1 :: _ :: _ => (colTitle c0 != "") && (c1.text != "")
  | _ => false

/-- The raw group text of a row (third matched column), before the
"Unknown" defaulting, when the row has at least 3 columns. -/
def rowGroupText : ReleaseDiv → Option String
  | ⟨_ :: _ :: c2 :: _⟩ => some c2.text
  | _ => none

/-- The identity key as built at main.py:147: the raw title, release and
group texts joined by "|". -/
def rawKey (t c g : String) : String :=
  t ++ "|" ++ c ++ "|" ++ g

theorem parseRow_isSome (d : ReleaseDiv) :
    (parseRow d).isSome = rowWellFormed d := by
  unfold parseRow rowWellFormed
  obtain ⟨cols⟩ := d
  match cols with
  | [] => rfl
  | [_] => rfl
  | [_, _] => rfl
  | c0 :: c1 :: c2 :: rest =>
    by_cases h : ((colTitle c0 != "") && (c1.text != "")) = true <;> simp [h]

theorem parseRow_some_props (d : ReleaseDiv) (r : ReleaseRecord)
    (h : parseRow d = some r) :
    r.title ≠ "" ∧ r.chapter ≠ "" ∧
      (rowGroupText d = some ("") → r.group = "Unknown") := by
  obtain ⟨cols⟩ := d
  match cols with
  | [] => exact absurd h (by simp [parseRow])
  | [_] => exact absurd h (by simp [parseRow])
  | [_, _] => exact absurd h (by simp [parseRow])
  | c0 :: c1 :: c2 :: rest =>
    unfold parseRow at h
    simp only at h
    by_cases hc : ((colTitle c0 != "") && (c1.text != "")) = true
    · rw [if_pos hc] at h
      obtain ⟨ht, hr⟩ := Bool.and_eq_true _ _ |>.mp hc
      cases h
      refine ⟨by simpa using ht, by simpa using hr, ?_⟩
      intro hg
      have hg2 : c2.text = "" := by simpa [rowGroupText] using hg
      simp [hg2]
    · rw [if_neg hc] at h
      exact absurd h (by simp)

/-- Key equation for an accepted row: the key is the raw column texts joined
by "|" (not the "Unknown"-defaulted group field). -/
theorem parseRow_key (c0 c1 c2 : ColData) (rest : List ColData)
    (r : ReleaseRecord) (h : parseRow ⟨c0 :: c1 :: c2 :: rest⟩ = some r) :
    r.key = rawKey (colTitle c0) c1.text c2.text := by
  unfold parseRow at h
  simp only at h
  by_cases hc : ((colTitle c0 != "") && (c1.text != "")) = true
  · rw [if_pos hc] at h
    cases h
    rfl
  · rw [if_neg hc] at h
    exact absurd h (by simp)

theorem parseReleases_length (divs : List ReleaseDiv) :
    (parseReleases divs).length = (divs.filter rowWellFormed).length := by
  induction divs with
  | nil => rfl
  | cons d ds ih =>
    unfold parseReleases at ih ⊢
    rw [List.filterMap_cons, List.filter_cons]
    cases hd : parseRow d with
    | none =>
      have : rowWellFormed d = false := by
        rw [← parseRow_isSome, hd]; rfl
      simp [this, ih]
    | some r =>
      have : rowWellFormed d = true := by
        rw [← parseRow_isSome, hd]; rfl
      simp [this, ih]

/-- C1: the parsing phase returns exactly one record per well-formed row
(rows with ≥ 3 matched columns and non-empty title/release text); every
record has non-empty title and chapter; the group field is "Unknown"
whenever the raw group text of the source row is empty.  Malformed rows are
dropped without affecting the rest. -/
theorem C1_parse_shape (divs : List ReleaseDiv) :
    (parseReleases divs).length = (divs.filter rowWellFormed).length ∧
    (∀ r ∈ parseReleases divs, r.title ≠ "" ∧ r.chapter ≠ "") ∧
    (∀ d r, parseRow d = some r → rowGroupText d = some ("") →
      r.group = "Unknown") := by
  refine ⟨parseReleases_length divs, ?_, ?_⟩
  · intro r hr
    obtain ⟨d, _, hd⟩ := List.mem_filterMap.mp hr
    obtain ⟨h1, h2, _⟩ := parseRow_some_props d r hd
    exact ⟨h1, h2⟩
  · intro d r hd hg
    exact (parseRow_some_props d r hd).2.2 hg

/-- A release row whose group column is empty after trimming. -/
def divEmptyGroup : ReleaseDiv :=
  ⟨[⟨"T", none⟩, ⟨"c1", none⟩, ⟨"", none⟩]⟩

/-- A release row whose group column literally reads "Unknown". -/
def divUnknownGroup : ReleaseDiv :=
  ⟨[⟨"T", none⟩, ⟨"c1", none⟩, ⟨"Unknown", none⟩]⟩

/-- The record parsed from `divEmptyGroup`. -/
def recEmptyGroup : ReleaseRecord :=
  ⟨"T", "c1", "Unknown", "T|c1|"⟩

/-- The record parsed from `divUnknownGroup`. -/
def recUnknownGroup : ReleaseRecord :=
  ⟨"T", "c1", "Unknown", "T|c1|Unknown"⟩

/-- C2 counterexample: two rows parse to records with identical
(title, chapter, group) fields but different keys, and the key of the first
is not the "|"-join of its own fields — the key is built from the raw group
text before the "Unknown" default, so it is not a function of the record's
displayed fields. -/
theorem C2_key_counterexample :
    parseRow divEmptyGroup = some recEmptyGroup ∧
    parseRow divUnknownGroup = some recUnknownGroup ∧
    recEmptyGroup.title = recUnknownGroup.title ∧
    recEmptyGroup.chapter = recUnknownGroup.chapter ∧
    recEmptyGroup.group = recUnknownGroup.group ∧
    recEmptyGroup.key ≠ recUnknownGroup.key ∧
    recEmptyGroup.key ≠
      recEmptyGroup.title ++ "|" ++ recEmptyGroup.chapter ++ "|" ++
        recEmptyGroup.group := by
  refine ⟨by decide, by decide, rfl, rfl, rfl, by decide, by decide⟩

theorem rawKey_inj_title (t t' c g : String)
    (he : rawKey t c g = rawKey t' c g) : t = t' := by
  apply String.ext
  have hd := congrArg String.data he
  simp only [rawKey, String.data_append, List.append_assoc] at hd
  exact List.append_cancel_right hd

theorem rawKey_inj_chapter (t c c' g : String)
    (he : rawKey t c g = rawKey t c' g) : c = c' := by
  apply String.ext
  have hd := congrArg String.data he
  simp only [rawKey, String.data_append, List.append_assoc] at hd
  exact List.append_cancel_right
    (List.append_cancel_left (List.append_cancel_left hd))

theorem rawKey_inj_group (t c g g' : String)
    (he : rawKey t c g = rawKey t c g') : g = g' := by
  apply String.ext
  have hd := congrArg String.data he
  simp only [rawKey, String.data_append, List.append_assoc] at hd
  exact List.append_cancel_left
    (List.append_cancel_left
      (List.append_cancel_left (List.append_cancel_left hd)))

/-- C2 amended: the key of an accepted row is the "|"-join of the raw
title, release and group column texts (the group text before the "Unknown"
default).  `rawKey` is a pure function of those three raw texts, and
changing any single one of them (the other two held fixed) changes the
key. -/
theorem C2_key_raw (c0 c1 c2 : ColData) (rest : List ColData)
    (r : ReleaseRecord) (h : parseRow ⟨c0 :: c1 :: c2 :: rest⟩ = some r) :
    r.key = rawKey (colTitle c0) c1.text c2.text ∧
    (∀ t t', rawKey t c1.text c2.text = rawKey t' c1.text c2.text →
      t = t') ∧
    (∀ c c', rawKey (colTitle c0) c c2.text =
      rawKey (colTitle c0) c' c2.text → c = c') ∧
    (∀ g g', rawKey (colTitle c0) c1.text g =
      rawKey (colTitle c0) c1.text g' → g = g') := by
  exact ⟨parseRow_key c0 c1 c2 rest r h,
    fun t t' he => rawKey_inj_title t t' _ _ he,
    fun c c' he => rawKey_inj_chapter _ c c' _ he,
    fun g g' he => rawKey_inj_group _ _ g g' he⟩

/-- Witness for `C2_key_raw` at the row `divUnknownGroup`. -/
theorem C2_key_raw_witness :
    recUnknownGroup.key = rawKey ("T") ("c1") ("Unknown") :=
  (C2_key_raw ⟨"T", none⟩ ⟨"c1", none⟩ ⟨"Unknown", none⟩ []
    recUnknownGroup (by decide)).1

/-- Result of one call to `fetch_releases_from_page` (main.py:102-168):
the returned list, the in-memory `cached_releases` afterwards, and the list
of full overwrites written to the cache file during the call. -/
structure FetchOutcome where
  result : List ReleaseRecord
  cached : List ReleaseRecord
  cacheSaves : List (List ReleaseRecord)
deriving DecidableEq

/-- Orchestration of `fetch_releases_from_page`: `fetched` is the outcome of
the HTTP fetch plus row extraction (an exception anywhere in the try block
is `Except.error`), `cached` is the in-memory cache on entry.  A non-empty
parse overwrites the cache (memory and file) and is returned; otherwise the
cached data is returned (literally `cached_releases if cached_releases else
[]`) and the cache is untouched (main.py:155-168). -/
def fetch_releases_from_page (fetched : Except Unit (List ReleaseDiv))
    (cached : List ReleaseRecord) : FetchOutcome :=
  match fetched with
  | Except.ok divs =>
    let releases := parseReleases divs
    if !releases.isEmpty then
      ⟨releases, releases, [releases]⟩
    else
      ⟨if !cached.isEmpty then cached else [], cached, []⟩
  | Except.error _ =>
    ⟨if !cached.isEmpty then cached else [], cached, []⟩

theorem fallback_result_eq_cached (cached : List ReleaseRecord) :
    (if !cached.isEmpty then cached else []) = cached := by
  cases cached <;> simp

/-- C4: whenever the fetch raises or the parse phase yields zero records,
`fetch_releases_from_page` returns the in-memory cache — the last
successfully persisted sequence, or the empty sequence when nothing was
ever persisted (the initial cache is `[]`). -/
theorem C4_fallback (fetched : Except Unit (List ReleaseDiv))
    (cached : List ReleaseRecord)
    (h : ∀ divs, fetched = Except.ok divs → parseReleases divs = []) :
    (fetch_releases_from_page fetched cached).result = cached := by
  cases fetched with
  | ok divs =>
    have hz := h divs rfl
    simp [fetch_releases_from_page, hz, fallback_result_eq_cached]
  | error e =>
    simp [fetch_releases_from_page, fallback_result_eq_cached]

/-- A malformed row: only two matched columns. -/
def divMalformed : ReleaseDiv :=
  ⟨[⟨"T", none⟩, ⟨"c1", none⟩]⟩

/-- Witness for `C4_fallback`: a page whose only row is malformed parses to
zero records, so the call returns the cached record. -/
theorem C4_fallback_witness :
    (fetch_releases_from_page (Except.ok [divMalformed])
      [recEmptyGroup]).result = [recEmptyGroup] :=
  C4_fallback (Except.ok [divMalformed]) [recEmptyGroup]
    (fun divs hd => by cases hd; decide)

/-- C8: the cache (memory and file) is overwritten, with the full parsed
sequence, exactly when the attempt parses at least one record; on a fetch
exception or a zero-record parse nothing is written and the in-memory cache
is unchanged. -/
theorem C8_cache_write (fetched : Except Unit (List ReleaseDiv))
    (cached : List ReleaseRecord) :
    (∀ divs, fetched = Except.ok divs → parseReleases divs ≠ [] →
      (fetch_releases_from_page fetched cached).cached =
          parseReleases divs ∧
        (fetch_releases_from_page fetched cached).cacheSaves =
          [parseReleases divs] ∧
        (fetch_releases_from_page fetched cached).result =
          parseReleases divs) ∧
    ((∀ divs, fetched = Except.ok divs → parseReleases divs = []) →
      (fetch_releases_from_page fetched cached).cached = cached ∧
        (fetch_releases_from_page fetched cached).cacheSaves = []) := by
  constructor
  · intro divs hd hne
    cases hd
    simp [fetch_releases_from_page, hne]
  · intro h
    cases fetched with
    | ok divs =>
      have hz := h divs rfl
      simp [fetch_releases_from_page, hz]
    | error e =>
      simp [fetch_releases_from_page]

/-- Witness for `C8_cache_write`: a successful one-row parse overwrites the
cache and file with that record, and a failed fetch writes nothing. -/
theorem C8_cache_write_witness :
    (fetch_releases_from_page (Except.ok [divEmptyGroup]) []).cacheSaves =
      [[recEmptyGroup]] ∧
    (fetch_releases_from_page (Except.error ())
      [recEmptyGroup]).cacheSaves = [] :=
  ⟨((C8_cache_write (Except.ok [divEmptyGroup]) []).1 [divEmptyGroup]
      rfl (by decide)).2.1.trans (by decide),
    ((C8_cache_write (Except.error ()) [recEmptyGroup]).2
      (fun divs hd => by cases hd)).2⟩

/-- The seen-release diff of `monitor_new_releases` (main.py:191-194): walk
the fetched listing in page order; a record whose key is not yet in the
seen set is added to the set and appended to the new-release list.  Returns
the seen set after the walk and the new releases in page order.  The
Python `set` is modelled as a duplicate-free list updated by cons. -/
def detect : List ReleaseRecord → List String →
    List String × List ReleaseRecord
  | [], seen => (seen, [])
  | r :: rs, seen =>
    if r.key ∈ seen then detect rs seen
    else
      ((detect rs (r.key :: seen)).1, r :: (detect rs (r.key :: seen)).2)

/-- The batch split of main.py:201-210: `new_releases[i:i+5]` for `i` in
`range(0, len(new_releases), 5)`. -/
def chunks5 : List ReleaseRecord → List (List ReleaseRecord)
  | [] => []
  | x :: xs => ((x :: xs).take 5) :: chunks5 (xs.drop 4)
termination_by l => l.length
decreasing_by
  simp only [List.length_drop, List.length_cons]
  omega

/-- Outcome of one detection cycle of `monitor_new_releases`
(main.py:186-219): the seen set afterwards, the new releases, the seen-set
file writes performed (`save_seen_releases` calls, each dumping the current
set), and the dispatched messages (one list of records per embed). -/
structure CycleOutcome where
  seen : List String
  newReleases : List ReleaseRecord
  seenSaves : List (List String)
  messages : List (List ReleaseRecord)
deriving DecidableEq

/-- One detection cycle applied to an already-fetched listing: diff against
the seen set; when the diff is non-empty, save the seen set once and
dispatch the new releases in batches of 5; otherwise neither write nor
dispatch anything. -/
def monitorCycle (seen : List String) (releases : List ReleaseRecord) :
    CycleOutcome :=
  let p := detect releases seen
  if p.2.isEmpty then
    ⟨p.1, p.2, [], []⟩
  else
    ⟨p.1, p.2, [p.1], chunks5 p.2⟩

/-- Iterated detection cycles over a sequence of fetched listings, threading
the seen set. -/
def runCycles (seen : List String) :
    List (List ReleaseRecord) → List String
  | [] => seen
  | rs :: rest => runCycles (monitorCycle seen rs).seen rest

theorem detect_seen_mono (rs : List ReleaseRecord) (s : List String)
    (k : String) (hk : k ∈ s) : k ∈ (detect rs s).1 := by
  induction rs generalizing s with
  | nil => exact hk
  | cons r rs ih =>
    by_cases h : r.key ∈ s
    · simpa [detect, h] using ih s hk
    · simpa [detect, h] using ih (r.key :: s) (List.mem_cons_of_mem _ hk)

theorem detect_key_mem (rs : List ReleaseRecord) (s : List String)
    (r : ReleaseRecord) (hr : r ∈ rs) : r.key ∈ (detect rs s).1 := by
  induction rs generalizing s with
  | nil => cases hr
  | cons r' rs ih =>
    by_cases h : r'.key ∈ s
    · rcases List.mem_cons.mp hr with he | ht
      · subst he
        simpa [detect, h] using detect_seen_mono rs s r.key h
      · simpa [detect, h] using ih s ht
    · rcases List.mem_cons.mp hr with he | ht
      · subst he
        simpa [detect, h] using
          detect_seen_mono rs (r.key :: s) r.key (List.mem_cons_self _ _)
      · simpa [detect, h] using ih (r'.key :: s) ht

theorem detect_all_seen (rs : List ReleaseRecord) (s : List String)
    (h : ∀ r ∈ rs, r.key ∈ s) : detect rs s = (s, []) := by
  induction rs with
  | nil => rfl
  | cons r rs ih =>
    have hr : r.key ∈ s := h r (List.mem_cons_self _ _)
    have ht : ∀ r' ∈ rs, r'.key ∈ s := fun r' hr' =>
      h r' (List.mem_cons_of_mem _ hr')
    simpa [detect, hr] using ih ht

theorem detect_empty_new (rs : List ReleaseRecord) (s : List String)
    (h : (detect rs s).2 = []) : (detect rs s).1 = s := by
  induction rs generalizing s with
  | nil => rfl
  | cons r rs ih =>
    by_cases hk : r.key ∈ s
    · rw [detect, if_pos hk] at h ⊢
      exact ih s h
    · rw [detect, if_neg hk] at h
      exact absurd h (by simp)

theorem detect_length_mono (rs : List ReleaseRecord) (s : List String) :
    s.length ≤ (detect rs s).1.length := by
  induction rs generalizing s with
  | nil => exact Nat.le_refl _
  | cons r rs ih =>
    by_cases hk : r.key ∈ s
    · simpa [detect, hk] using ih s
    · rw [detect, if_neg hk]
      exact Nat.le_trans (Nat.le_succ _) (ih (r.key :: s))

theorem detect_new_not_seen (rs : List ReleaseRecord) (s : List String)
    (r : ReleaseRecord) (hr : r ∈ (detect rs s).2) : r.key ∉ s := by
  induction rs generalizing s with
  | nil => cases hr
  | cons r' rs ih =>
    by_cases hk : r'.key ∈ s
    · rw [detect, if_pos hk] at hr
      exact ih s hr
    · rw [detect, if_neg hk] at hr
      rcases List.mem_cons.mp hr with he | ht
      · subst he; exact hk
      · intro hc
        exact ih (r'.key :: s) ht (List.mem_cons_of_mem _ hc)

theorem detect_new_nodup (rs : List ReleaseRecord) (s : List String) :
    ((detect rs s).2.map ReleaseRecord.key).Nodup := by
  induction rs generalizing s with
  | nil => exact List.nodup_nil
  | cons r rs ih =>
    by_cases hk : r.key ∈ s
    · simpa [detect, hk] using ih s
    · rw [detect, if_neg hk]
      refine List.nodup_cons.mpr ⟨?_, ih (r.key :: s)⟩
      intro hc
      obtain ⟨r', hr', he⟩ := List.mem_map.mp hc
      exact detect_new_not_seen rs (r.key :: s) r' hr'
        (he ▸ List.mem_cons_self _ _)

theorem chunks5_flatten (l : List ReleaseRecord) :
    (chunks5 l).flatten = l := by
  induction l using chunks5.induct with
  | case1 => simp [chunks5]
  | case2 x xs ih =>
    simp only [chunks5, List.flatten_cons, ih]
    simp [List.take_append_drop]

theorem chunks5_length (l : List ReleaseRecord) :
    (chunks5 l).length = (l.length + 4) / 5 := by
  induction l using chunks5.induct with
  | case1 => simp [chunks5]
  | case2 x xs ih =>
    simp only [chunks5, List.length_cons, ih, List.length_drop]
    omega

theorem chunks5_getD (l : List ReleaseRecord) (i : Nat)
    (hi : i < (chunks5 l).length) :
    (chunks5 l).getD i [] = (l.drop (5 * i)).take 5 := by
  induction l using chunks5.induct generalizing i with
  | case1 => simp [chunks5] at hi
  | case2 x xs ih =>
    match i with
    | 0 => simp [chunks5]
    | Nat.succ j =>
      have hj : j < (chunks5 (xs.drop 4)).length := by
        simp only [chunks5, List.length_cons] at hi
        omega
      rw [chunks5]
      simp only [List.getD_cons_succ]
      rw [ih j hj, List.drop_drop]
      have h5 : 5 * (j + 1) = (5 * j + 4) + 1 := by omega
      rw [h5, List.drop_succ_cons, Nat.add_comm 4 (5 * j)]

theorem monitorCycle_seen (seen : List String)
    (releases : List ReleaseRecord) :
    (monitorCycle seen releases).seen = (detect releases seen).1 := by
  unfold monitorCycle
  by_cases h : (detect releases seen).2.isEmpty <;> simp [h]

theorem monitorCycle_new (seen : List String)
    (releases : List ReleaseRecord) :
    (monitorCycle seen releases).newReleases = (detect releases seen).2 := by
  unfold monitorCycle
  by_cases h : (detect releases seen).2.isEmpty <;> simp [h]

/-- C3: detection is idempotent — after one cycle over a listing, a second
cycle over the same unchanged listing finds no new release and dispatches
no message. -/
theorem C3_idempotent (seen : List String)
    (releases : List ReleaseRecord) :
    (monitorCycle (monitorCycle seen releases).seen
        releases).newReleases = [] ∧
    (monitorCycle (monitorCycle seen releases).seen
        releases).messages = [] := by
  rw [monitorCycle_seen]
  have hall : ∀ r ∈ releases, r.key ∈ (detect releases seen).1 :=
    fun r hr => detect_key_mem releases seen r hr
  have hd : detect releases ((detect releases seen).1) =
      ((detect releases seen).1, []) :=
    detect_all_seen releases (detect releases seen).1 hall
  constructor <;> · unfold monitorCycle; rw [hd]; simp

/-- C5: the seen set only grows — across any sequence of detection cycles,
every key present at the start is still present at the end, and the size
never decreases. -/
theorem C5_seen_monotone (listings : List (List ReleaseRecord))
    (seen : List String) :
    (∀ k ∈ seen, k ∈ runCycles seen listings) ∧
    seen.length ≤ (runCycles seen listings).length := by
  induction listings generalizing seen with
  | nil => exact ⟨fun k hk => hk, Nat.le_refl _⟩
  | cons rs rest ih =>
    obtain ⟨ihm, ihl⟩ := ih (monitorCycle seen rs).seen
    constructor
    · intro k hk
      have hk2 : k ∈ (monitorCycle seen rs).seen := by
        rw [monitorCycle_seen]
        exact detect_seen_mono rs seen k hk
      rw [runCycles]
      exact ihm k hk2
    · rw [runCycles]
      refine Nat.le_trans ?_ ihl
      rw [monitorCycle_seen]
      exact detect_length_mono rs seen

/-- Witness for `C5_seen_monotone`: a key already seen survives two cycles
over a two-record listing. -/
theorem C5_seen_monotone_witness :
    "T|c1|" ∈ runCycles ["T|c1|"]
      [[recUnknownGroup], [recEmptyGroup, recUnknownGroup]] ∧
    (List.length ["T|c1|"]) ≤ (runCycles ["T|c1|"]
      [[recUnknownGroup], [recEmptyGroup, recUnknownGroup]]).length :=
  ⟨(C5_seen_monotone [[recUnknownGroup], [recEmptyGroup, recUnknownGroup]]
      ["T|c1|"]).1 ("T|c1|") (by decide),
    (C5_seen_monotone [[recUnknownGroup], [recEmptyGroup, recUnknownGroup]]
      ["T|c1|"]).2⟩

/-- C9: the seen set is written exactly once in a cycle that finds at least
one new key (dumping the post-cycle set), and not written at all — and the
set itself is unchanged — in a cycle that finds none. -/
theorem C9_persist_once (seen : List String)
    (releases : List ReleaseRecord) :
    ((monitorCycle seen releases).newReleases ≠ [] →
      (monitorCycle seen releases).seenSaves =
        [(monitorCycle seen releases).seen]) ∧
    ((monitorCycle seen releases).newReleases = [] →
      (monitorCycle seen releases).seenSaves = [] ∧
        (monitorCycle seen releases).seen = seen) := by
  constructor
  · intro hne
    rw [monitorCycle_new] at hne
    unfold monitorCycle
    rw [if_neg (by simpa using hne)]
  · intro he
    rw [monitorCycle_new] at he
    unfold monitorCycle
    rw [if_pos (by simpa using he)]
    exact ⟨rfl, detect_empty_new releases seen he⟩

/-- Witness for `C9_persist_once`: a singleton listing against an empty
seen set saves once; against a seen set already holding its key it saves
nothing. -/
theorem C9_persist_once_witness :
    (monitorCycle [] [recEmptyGroup]).seenSaves =
      [(monitorCycle [] [recEmptyGroup]).seen] ∧
    (monitorCycle ["T|c1|"] [recEmptyGroup]).seenSaves = [] :=
  ⟨(C9_persist_once [] [recEmptyGroup]).1 (by decide),
    ((C9_persist_once ["T|c1|"] [recEmptyGroup]).2 (by decide)).1⟩

/-- C10: within one cycle, records sharing a key are notified at most once:
the new-release list never repeats a key (the set is updated during the
walk, before later records are tested), and hence neither do the rendered
message entries taken together. -/
theorem C10_in_cycle_dedup (seen : List String)
    (releases : List ReleaseRecord) :
    (((monitorCycle seen releases).newReleases.map
        ReleaseRecord.key).Nodup) ∧
    (((monitorCycle seen releases).messages.flatten.map
        ReleaseRecord.key).Nodup) := by
  have hn := detect_new_nodup releases seen
  constructor
  · rw [monitorCycle_new]
    exact hn
  · unfold monitorCycle
    by_cases h : (detect releases seen).2.isEmpty
    · simp [h]
    · rw [if_neg h]
      simpa [chunks5_flatten] using hn

theorem chunks5_getD_length (l : List ReleaseRecord) (i : Nat)
    (hi : i < (chunks5 l).length) :
    ((chunks5 l).getD i []).length = min 5 (l.length - 5 * i) := by
  rw [chunks5_getD l i hi]
  simp [List.length_take, List.length_drop]

/-- C6: in a cycle with K > 0 new releases the notifier dispatches exactly
ceil(K/5) = (K+4)/5 messages; message i carries exactly the records at
positions [5i, min(5i+5, K)) of the new-release list (so min(5, remaining)
entries each), and the messages concatenated in dispatch order are exactly
the new-release list — original page order, nothing duplicated or
dropped. -/
theorem C6_batching (seen : List String) (releases : List ReleaseRecord)
    (h : (monitorCycle seen releases).newReleases ≠ []) :
    (monitorCycle seen releases).messages.length =
      ((monitorCycle seen releases).newReleases.length + 4) / 5 ∧
    (∀ i, i < (monitorCycle seen releases).messages.length →
      (monitorCycle seen releases).messages.getD i [] =
        ((monitorCycle seen releases).newReleases.drop (5 * i)).take 5) ∧
    (∀ i, i < (monitorCycle seen releases).messages.length →
      ((monitorCycle seen releases).messages.getD i []).length =
        min 5 ((monitorCycle seen releases).newReleases.length - 5 * i)) ∧
    (monitorCycle seen releases).messages.flatten =
      (monitorCycle seen releases).newReleases := by
  have hne : ¬(detect releases seen).2.isEmpty = true := by
    rw [monitorCycle_new] at h
    simpa using h
  have hm : (monitorCycle seen releases).messages =
      chunks5 (detect releases seen).2 := by
    unfold monitorCycle
    rw [if_neg hne]
  rw [hm, monitorCycle_new]
  exact ⟨chunks5_length _,
    fun i hi => chunks5_getD _ i hi,
    fun i hi => chunks5_getD_length _ i hi,
    chunks5_flatten _⟩

/-- Seven pairwise distinct release records used as concrete test data. -/
def rs7 : List ReleaseRecord :=
  [⟨"t1", "c", "G", "k1"⟩, ⟨"t2", "c", "G", "k2"⟩, ⟨"t3", "c", "G", "k3"⟩,
    ⟨"t4", "c", "G", "k4"⟩, ⟨"t5", "c", "G", "k5"⟩, ⟨"t6", "c", "G", "k6"⟩,
    ⟨"t7", "c", "G", "k7"⟩]

/-- Witness for `C6_batching`: 7 fresh releases are dispatched as 2
messages. -/
theorem C6_batching_witness :
    (monitorCycle [] rs7).messages.length = 2 :=
  ((C6_batching [] rs7 (by decide)).1).trans (by decide)

/-- Python-style character slice `s[:n]`: the first n characters. -/
def strTake (s : String) (n : Nat) : String :=
  ⟨s.data.take n⟩

/-- The embed-field name built on the monitor path (main.py:212): the full
title behind a book emoji, with no truncation. -/
def monitorFieldName (r : ReleaseRecord) : String :=
  "📖 " ++ r.title

/-- The embed-field body built on the monitor path (main.py:213). -/
def monitorFieldValue (r : ReleaseRecord) : String :=
  "**Release:** " ++ r.chapter ++ "\n**Group:** " ++ r.group

/-- The truncated title of the `.latestrelease` path (main.py:263-265):
titles longer than 80 characters are cut to their first 77 characters plus
an ellipsis. -/
def listAllTitleDisplay (t : String) : String :=
  if t.length > 80 then strTake t 77 ++ "..." else t

/-- The embed-field name built on the `.latestrelease` path
(main.py:267-268). -/
def listAllFieldName (r : ReleaseRecord) : String :=
  "📖 " ++ listAllTitleDisplay r.title

/-- The embed-field body built on the `.latestrelease` path
(main.py:269). -/
def listAllFieldValue (r : ReleaseRecord) : String :=
  "**Release:** " ++ r.chapter ++ "\n**Groups:** " ++ r.group

/-- A record whose title is 100 characters long. -/
def recLongTitle : ReleaseRecord :=
  ⟨String.mk (List.replicate 100 'a'), "c. 1", "G", "k"⟩

/-- C7 counterexample: the monitor path does not bound the title — the
embed-field name of a 100-character title embeds all 100 characters, while
the `.latestrelease` path cuts the same title to 80 characters.  So the
monitor-path entry name is not a length-bounded rendering of the title. -/
theorem C7_truncation_counterexample :
    recLongTitle.title.length = 100 ∧
    monitorFieldName recLongTitle = "📖 " ++ recLongTitle.title ∧
    (monitorFieldName recLongTitle).length = 102 ∧
    listAllTitleDisplay recLongTitle.title ≠ recLongTitle.title ∧
    (listAllTitleDisplay recLongTitle.title).length = 80 := by
  exact ⟨by decide, rfl, by decide, by decide, by decide⟩

theorem strTake_length (s : String) (n : Nat) :
    (strTake s n).length = min n s.length := by
  cases s with
  | mk data => simp [strTake, String.length]

/-- C7 amended: only the `.latestrelease` path length-bounds the displayed
title — unchanged when at most 80 characters, otherwise the 77-character
slice plus "...", always at most 80 characters; the monitor path embeds
the full title unbounded.  On both paths the body is the release label
followed by the group. -/
theorem C7_render_shape (r : ReleaseRecord) (t : String) :
    (t.length ≤ 80 → listAllTitleDisplay t = t) ∧
    (t.length > 80 → listAllTitleDisplay t = strTake t 77 ++ "...") ∧
    (listAllTitleDisplay t).length ≤ 80 ∧
    listAllFieldName r = "📖 " ++ listAllTitleDisplay r.title ∧
    monitorFieldName r = "📖 " ++ r.title ∧
    monitorFieldValue r =
      "**Release:** " ++ r.chapter ++ "\n**Group:** " ++ r.group ∧
    listAllFieldValue r =
      "**Release:** " ++ r.chapter ++ "\n**Groups:** " ++ r.group := by
  refine ⟨?_, ?_, ?_, rfl, rfl, rfl, rfl⟩
  · intro hle
    unfold listAllTitleDisplay
    rw [if_neg (by omega)]
  · intro hgt
    unfold listAllTitleDisplay
    rw [if_pos hgt]
  · unfold listAllTitleDisplay
    by_cases hgt : t.length > 80
    · rw [if_pos hgt, String.length_append, strTake_length]
      have h3 : ("...").length = 3 := by decide
      omega
    · rw [if_neg hgt]
      omega

/-- Witness for `C7_render_shape`: a short title passes through unchanged
and the long title's display stays within 80 characters. -/
theorem C7_render_shape_witness :
    listAllTitleDisplay ("Solo") = "Solo" ∧
    (listAllTitleDisplay recLongTitle.title).length ≤ 80 :=
  ⟨(C7_render_shape recLongTitle ("Solo")).1 (by decide),
    (C7_render_shape recLongTitle recLongTitle.title).2.2.1⟩

/-- Witness for `C1_parse_shape`: one well-formed and one malformed row
yield exactly one record, whose title is non-empty. -/
theorem C1_parse_shape_witness :
    (parseReleases [divEmptyGroup, divMalformed]).length =
      (([divEmptyGroup, divMalformed]).filter rowWellFormed).length ∧
    recEmptyGroup.title ≠ "" :=
  ⟨(C1_parse_shape [divEmptyGroup, divMalformed]).1,
    ((C1_parse_shape [divEmptyGroup, divMalformed]).2.1 recEmptyGroup
      (by decide)).1⟩
